import Mathlib

/-!
Shallow embedding of the Mnemosyne MCP versioned knowledge-graph engine
(`Neo4jStorageProvider`, `LocalEmbeddingService`) for checking the
natural-language specification against the code.

Entity and relation rows mirror the node/relationship properties the provider
stores in Neo4j.  Relationship rows reference the concrete node rows they are
attached to by `fromId`/`toId`, matching Neo4j's edge attachment.  Cypher
queries issued by the provider are translated into list operations over the
state; external collaborators (the embedding service and the native vector
index) are passed in as function parameters.  JavaScript truthiness defaults
(`x || d`) are modelled explicitly.
-/

/-- JavaScript `x || d` on an optional number: `undefined`, `null` and `0`
are all falsy and fall through to the default. -/
def jsOrNat (x : Option Nat) (d : Nat) : Nat :=
  match x with
  | some v => if v = 0 then d else v
  | none => d

/-- JavaScript `x || d` on a number already known to be present (`0` falsy). -/
def jsOrNat0 (v : Nat) (d : Nat) : Nat :=
  if v = 0 then d else v

/-- JavaScript `x || null` on an optional rational (`0` falsy). -/
def jsOrNullQ (x : Option ℚ) : Option ℚ :=
  match x with
  | some v => if v = 0 then none else some v
  | none => none

/-- JavaScript `x || d` on an optional rational, as used for
`options.minSimilarity || 0.6` (`0` falsy). -/
def jsOrQ (x : Option ℚ) (d : ℚ) : ℚ :=
  match x with
  | some v => if v = 0 then d else v
  | none => d

/-- A stored entity node row (`Entity` node properties in `Neo4jStorageProvider`). -/
structure EntityRow where
  id : Nat
  name : String
  entityType : String
  observations : List String
  version : Nat
  createdAt : Nat
  updatedAt : Nat
  validFrom : Nat
  validTo : Option Nat
  changedBy : Option String
  embedding : Option (List ℚ)
deriving DecidableEq

/-- A stored relationship row (`RELATES_TO` relationship properties).
`fromId`/`toId` are the `id` properties of the node rows the edge is
attached to. -/
structure RelRow where
  id : Nat
  fromId : Nat
  toId : Nat
  relationType : String
  strength : Option ℚ
  confidence : Option ℚ
  metadata : Option String
  version : Nat
  createdAt : Nat
  updatedAt : Nat
  validFrom : Nat
  validTo : Option Nat
  changedBy : Option String
deriving DecidableEq

/-- The persistent store state: all entity node rows and relationship rows.
`nextId` models the fresh-UUID supply. -/
structure KGState where
  entities : List EntityRow
  relations : List RelRow
  nextId : Nat
deriving DecidableEq

def emptyState : KGState := { entities := [], relations := [], nextId := 0 }

/-- The row predicate `name = n AND validTo IS NULL`. -/
def curP (n : String) : EntityRow → Bool :=
  fun e => e.name == n && e.validTo == none

/-- The rows for `name` that are current (`validTo IS NULL`). -/
def currents (st : KGState) (n : String) : List EntityRow :=
  st.entities.filter (curP n)

/-- The bitemporal invariant of the spec: for a given name, at most one row is
current at any instant. -/
def atMostOneCurrent (st : KGState) : Prop :=
  ∀ n : String, (currents st n).length ≤ 1

/-- `getEntity`: `MATCH (e:Entity {name: $name}) WHERE e.validTo IS NULL`,
first record. -/
def getEntity (st : KGState) (n : String) : Option EntityRow :=
  st.entities.find? (curP n)

/-- An embedding service (`this.embeddingService`): text to vector, may fail. -/
def EmbedSvc := Option (String → Except String (List ℚ))

/-- Input item for `createEntities`. -/
structure EntityInput where
  name : String
  entityType : String
  observations : List String
  createdAt : Option Nat := none
  updatedAt : Option Nat := none
  validFrom : Option Nat := none
  changedBy : Option String := none
deriving DecidableEq

/-- The version-1 row inserted by `createEntities`: the embedding is generated
from the joined observation text if a service is available (failure is
absorbed and the entity is created without an embedding). -/
def createdEntityRow (svc : EmbedSvc) (now : Nat) (newId : Nat)
    (inp : EntityInput) : EntityRow :=
  { id := newId
    name := inp.name
    entityType := inp.entityType
    observations := inp.observations
    version := 1
    createdAt := jsOrNat inp.createdAt now
    updatedAt := jsOrNat inp.updatedAt now
    validFrom := jsOrNat inp.validFrom now
    validTo := none
    changedBy := inp.changedBy
    embedding :=
      match svc with
      | some f =>
        match f (String.intercalate "\n" inp.observations) with
        | Except.ok v => some v
        | Except.error _ => none
      | none => none }

/-- One iteration of the `createEntities` loop: `CREATE` a version-1 row with
`validTo = null`.  No check is made for an existing row with the same name. -/
def createEntityStep (svc : EmbedSvc) (now : Nat) (s : KGState) (inp : EntityInput) : KGState :=
  { s with
    entities := s.entities ++ [createdEntityRow svc now s.nextId inp]
    nextId := s.nextId + 1 }

/-- `createEntities`: inserts a version-1 current row per input, inside one
transaction. -/
def createEntities (st : KGState) (inputs : List EntityInput) (now : Nat)
    (svc : EmbedSvc) : KGState :=
  inputs.foldl (createEntityStep svc now) st

/-- Input item for `createRelations` (and `saveGraph` relations). -/
structure RelInput where
  fromName : String
  toName : String
  relationType : String
  strength : Option ℚ := none
  confidence : Option ℚ := none
  metadata : Option String := none
  createdAt : Option Nat := none
  updatedAt : Option Nat := none
  validFrom : Option Nat := none
  changedBy : Option String := none
deriving DecidableEq

/-- One iteration of the `createRelations` loop.  The existence check
`MATCH (from:Entity {name}) MATCH (to:Entity {name}) RETURN from, to` has no
`validTo IS NULL` clause, so any stored row (current or historical) counts;
if either name matches no row at all the relation is skipped.  The subsequent
`CREATE` matches the same Cartesian product, creating one edge per pair of
matching node rows, all sharing the single generated id. -/
def createRelationStep (now : Nat) (s : KGState) (inp : RelInput) : KGState :=
  let fromRows := s.entities.filter (fun e => e.name == inp.fromName)
  let toRows := s.entities.filter (fun e => e.name == inp.toName)
  if fromRows.isEmpty || toRows.isEmpty then s
  else
    let newRels : List RelRow := (fromRows.product toRows).map (fun ab =>
      { id := s.nextId
        fromId := ab.1.id
        toId := ab.2.id
        relationType := inp.relationType
        strength := jsOrNullQ inp.strength
        confidence := jsOrNullQ inp.confidence
        metadata := inp.metadata
        version := 1
        createdAt := jsOrNat inp.createdAt now
        updatedAt := jsOrNat inp.updatedAt now
        validFrom := jsOrNat inp.validFrom now
        validTo := none
        changedBy := inp.changedBy })
    { s with relations := s.relations ++ newRels, nextId := s.nextId + 1 }

/-- `createRelations`: per relation, skip if an endpoint name matches no row,
else create the edge(s). -/
def createRelations (st : KGState) (inputs : List RelInput) (now : Nat) : KGState :=
  inputs.foldl (createRelationStep now) st

/-- Input item for `addObservations`. -/
structure ObsInput where
  entityName : String
  contents : List String
deriving DecidableEq

/-- Result item of `addObservations`. -/
structure ObsResult where
  entityName : String
  addedObservations : List String
deriving DecidableEq

/-- The close-and-recreate state transition performed by `addObservations`
for one entity, given its loaded current row `cur` and the genuinely new
contents `newObservations`: close the current row and every current adjacent
relation, create the entity's next version holding the merged observation
list, and recreate each adjacent relation against the new version, copying
`strength`/`confidence` forward with defaults 0.9/0.95 when absent. -/
def addObsNewRow (st : KGState) (cur : EntityRow) (newObservations : List String)
    (now : Nat) : EntityRow :=
  { id := st.nextId
    name := cur.name
    entityType := cur.entityType
    observations := cur.observations ++ newObservations
    version := cur.version + 1
    createdAt := cur.createdAt
    updatedAt := now
    validFrom := now
    validTo := none
    changedBy := none
    embedding := none }

def addObsApply (st : KGState) (cur : EntityRow) (newObservations : List String)
    (now : Nat) : KGState :=
  let outgoing := st.relations.filter (fun r => r.fromId == cur.id && r.validTo == none)
  let incoming := st.relations.filter (fun r => r.toId == cur.id && r.validTo == none)
  let entities1 := st.entities.map (fun e =>
    if e.id = cur.id then { e with validTo := some now } else e)
  let relations1 := st.relations.map (fun r =>
    if (r.fromId = cur.id ∨ r.toId = cur.id) ∧ r.validTo = none then
      { r with validTo := some now } else r)
  let newEntityId := st.nextId
  let newRow : EntityRow := addObsNewRow st cur newObservations now
  let outNew : List RelRow := outgoing.enum.map (fun ir =>
    { id := newEntityId + 1 + ir.1
      fromId := newEntityId
      toId := ir.2.toId
      relationType := ir.2.relationType
      strength := some (ir.2.strength.getD (9/10))
      confidence := some (ir.2.confidence.getD (19/20))
      metadata := ir.2.metadata
      version := jsOrNat0 ir.2.version 1
      createdAt := jsOrNat0 ir.2.createdAt now
      updatedAt := now
      validFrom := now
      validTo := none
      changedBy := none })
  let inNew : List RelRow := incoming.enum.map (fun ir =>
    { id := newEntityId + 1 + outgoing.length + ir.1
      fromId := ir.2.fromId
      toId := newEntityId
      relationType := ir.2.relationType
      strength := some (ir.2.strength.getD (9/10))
      confidence := some (ir.2.confidence.getD (19/20))
      metadata := ir.2.metadata
      version := jsOrNat0 ir.2.version 1
      createdAt := jsOrNat0 ir.2.createdAt now
      updatedAt := now
      validFrom := now
      validTo := none
      changedBy := none })
  { entities := entities1 ++ [newRow]
    relations := relations1 ++ outNew ++ inNew
    nextId := newEntityId + 1 + outgoing.length + incoming.length }

/-- One iteration of the `addObservations` loop: load the current row and its
current adjacent relations; compute the contents not already present; if none,
report `addedObservations = []` and leave the store untouched; otherwise close
the current row and its current adjacent relations, create the entity's next
version, and recreate each adjacent relation against the new version, copying
`strength`/`confidence` forward with defaults 0.9/0.95 when absent. -/
def addObservationsItem (st : KGState) (ob : ObsInput) (now : Nat) :
    KGState × Option ObsResult :=
  if ob.entityName = "" ∨ ob.contents = [] then (st, none)
  else
    match getEntity st ob.entityName with
    | none => (st, none)
    | some cur =>
      let currentObservations := cur.observations
      let newObservations := ob.contents.filter (fun c => !(currentObservations.contains c))
      if newObservations.isEmpty then
        (st, some { entityName := ob.entityName, addedObservations := [] })
      else
        (addObsApply st cur newObservations now,
         some { entityName := ob.entityName, addedObservations := newObservations })

/-- `addObservations`: fold the per-item step over the batch, collecting the
result entries of the items that were not skipped. -/
def addObservations (st : KGState) (obsList : List ObsInput) (now : Nat) :
    KGState × List ObsResult :=
  obsList.foldl (fun acc ob =>
    let step := addObservationsItem acc.1 ob now
    (step.1, acc.2 ++ step.2.toList)) (st, [])

/-- Input item for `deleteObservations`. -/
structure DelObsInput where
  entityName : String
  observations : List String
deriving DecidableEq

/-- The close-and-recreate transition performed by `deleteObservations` for
one entity: close the current row and create the next version with the listed
observations removed.  (Adjacent relations are not touched by this
operation.) -/
def delObsApply (st : KGState) (cur : EntityRow) (toRemove : List String)
    (now : Nat) : KGState :=
  let updatedObservations :=
    cur.observations.filter (fun o => !(toRemove.contains o))
  let entities1 := st.entities.map (fun e =>
    if e.id = cur.id then { e with validTo := some now } else e)
  let newRow : EntityRow :=
    { id := st.nextId
      name := cur.name
      entityType := cur.entityType
      observations := updatedObservations
      version := cur.version + 1
      createdAt := cur.createdAt
      updatedAt := now
      validFrom := now
      validTo := none
      changedBy := none
      embedding := none }
  { entities := entities1 ++ [newRow]
    relations := st.relations
    nextId := st.nextId + 1 }

/-- One iteration of the `deleteObservations` loop: close the current row and
create the next version with the listed observations removed.  (Adjacent
relations are not touched by this operation.) -/
def deleteObservationsItem (st : KGState) (d : DelObsInput) (now : Nat) : KGState :=
  if d.entityName = "" ∨ d.observations = [] then st
  else
    match getEntity st d.entityName with
    | none => st
    | some cur => delObsApply st cur d.observations now

/-- `deleteObservations` over a batch. -/
def deleteObservations (st : KGState) (dels : List DelObsInput) (now : Nat) : KGState :=
  dels.foldl (fun s d => deleteObservationsItem s d now) st

/-- Whether relationship row `r` is attached to a node row named `fromN` on
its source side and `toN` on its target side (the Cypher pattern
`(from:Entity {name})-[r]->(to:Entity {name})`). -/
def relMatchesNames (st : KGState) (r : RelRow) (fromN toN : String) : Bool :=
  (st.entities.any (fun a => a.id == r.fromId && a.name == fromN)) &&
  (st.entities.any (fun b => b.id == r.toId && b.name == toN))

/-- Input for `updateRelation`.  `strength`/`confidence` are `none` when the
caller left the field `undefined` (the code tests `!== undefined`). -/
structure RelUpdateInput where
  fromName : String
  toName : String
  relationType : String
  strength : Option ℚ := none
  confidence : Option ℚ := none
  metadata : Option String := none
  changedBy : Option String := none
deriving DecidableEq

/-- `updateRelation`: look up the current relation matching
`(from, to, relationType)`; if absent, throw `Relation not found` (the
transaction is rolled back and the error propagates to the caller).  Otherwise
close the matched row and create the next version, carrying forward any field
not explicitly supplied.  The `CREATE` matches every pair of node rows with the
two names. -/
def updateRelation (st : KGState) (inp : RelUpdateInput) (now : Nat) :
    Except String KGState :=
  match st.relations.find? (fun r =>
      relMatchesNames st r inp.fromName inp.toName &&
      r.relationType == inp.relationType && r.validTo == none) with
  | none =>
    Except.error ("Relation not found: " ++ inp.fromName ++ " -> " ++ inp.toName ++
      " (" ++ inp.relationType ++ ")")
  | some currentRel =>
    let relations1 := st.relations.map (fun r =>
      if r.id = currentRel.id ∧ relMatchesNames st r inp.fromName inp.toName = true then
        { r with validTo := some now } else r)
    let fromRows := st.entities.filter (fun e => e.name == inp.fromName)
    let toRows := st.entities.filter (fun e => e.name == inp.toName)
    let newRels : List RelRow := (fromRows.product toRows).map (fun ab =>
      { id := st.nextId
        fromId := ab.1.id
        toId := ab.2.id
        relationType := inp.relationType
        strength := match inp.strength with
          | some v => some v
          | none => currentRel.strength
        confidence := match inp.confidence with
          | some v => some v
          | none => currentRel.confidence
        metadata := match inp.metadata with
          | some m => some m
          | none => currentRel.metadata
        version := currentRel.version + 1
        createdAt := currentRel.createdAt
        updatedAt := now
        validFrom := now
        validTo := none
        changedBy := inp.changedBy })
    Except.ok { st with relations := relations1 ++ newRels, nextId := st.nextId + 1 }

/-- `deleteEntities`: `DETACH DELETE` every row whose name is listed, removing
the attached relationship rows with them. -/
def deleteEntities (st : KGState) (names : List String) : KGState :=
  let removedIds := (st.entities.filter (fun e => names.contains e.name)).map (fun e => e.id)
  { entities := st.entities.filter (fun e => !(names.contains e.name))
    relations := st.relations.filter (fun r =>
      !(removedIds.contains r.fromId) && !(removedIds.contains r.toId))
    nextId := st.nextId }

/-- Key identifying relations for the hard `deleteRelations`. -/
structure RelKey where
  fromName : String
  toName : String
  relationType : String
deriving DecidableEq

/-- `deleteRelations`: unconditional hard delete of every matching edge (no
`validTo` filter — history included). -/
def deleteRelations (st : KGState) (keys : List RelKey) : KGState :=
  keys.foldl (fun s k =>
    { s with relations := s.relations.filter (fun r =>
        !(relMatchesNames s r k.fromName k.toName && r.relationType == k.relationType)) }) st

/-- Entity input for `saveGraph`, which preserves supplied temporal fields
(`validTo: extendedEntity.validTo || null`). -/
structure SaveEntityInput where
  name : String
  entityType : String
  observations : List String
  id : Option Nat := none
  version : Option Nat := none
  createdAt : Option Nat := none
  updatedAt : Option Nat := none
  validFrom : Option Nat := none
  validTo : Option Nat := none
  changedBy : Option String := none
deriving DecidableEq

/-- `saveGraph`: delete everything, then recreate the supplied entity rows
as-is (defaults filled per JavaScript truthiness) and the supplied relations
via name `MATCH`es. -/
def saveGraph (g : List SaveEntityInput) (grels : List RelInput) (now : Nat) : KGState :=
  let st0 : KGState := emptyState
  let st1 := g.foldl (fun s inp =>
    let row : EntityRow :=
      { id := match inp.id with | some i => i | none => s.nextId
        name := inp.name
        entityType := inp.entityType
        observations := inp.observations
        version := jsOrNat inp.version 1
        createdAt := jsOrNat inp.createdAt now
        updatedAt := jsOrNat inp.updatedAt now
        validFrom := jsOrNat inp.validFrom now
        validTo := match inp.validTo with
          | some v => if v = 0 then none else some v
          | none => none
        changedBy := inp.changedBy
        embedding := none }
    { s with entities := s.entities ++ [row], nextId := s.nextId + 1 }) st0
  grels.foldl (fun s inp =>
    let fromRows := s.entities.filter (fun e => e.name == inp.fromName)
    let toRows := s.entities.filter (fun e => e.name == inp.toName)
    let newRels : List RelRow := (fromRows.product toRows).map (fun ab =>
      { id := s.nextId
        fromId := ab.1.id
        toId := ab.2.id
        relationType := inp.relationType
        strength := jsOrNullQ inp.strength
        confidence := jsOrNullQ inp.confidence
        metadata := inp.metadata
        version := 1
        createdAt := jsOrNat inp.createdAt now
        updatedAt := jsOrNat inp.updatedAt now
        validFrom := jsOrNat inp.validFrom now
        validTo := none
        changedBy := inp.changedBy })
    { s with relations := s.relations ++ newRels, nextId := s.nextId + 1 }) st1

/-- The operations of the version manager, for reasoning about operation
sequences. -/
inductive Op where
  | createEnts (inputs : List EntityInput) (now : Nat)
  | createRels (inputs : List RelInput) (now : Nat)
  | addObs (obs : List ObsInput) (now : Nat)
  | delObs (dels : List DelObsInput) (now : Nat)
  | updateRel (inp : RelUpdateInput) (now : Nat)
  | delEnts (names : List String)
  | delRels (keys : List RelKey)

/-- Execute one operation.  A thrown `updateRelation` error rolls the
transaction back, leaving the state unchanged. -/
def execOp (svc : EmbedSvc) (st : KGState) : Op → KGState
  | Op.createEnts inputs now => createEntities st inputs now svc
  | Op.createRels inputs now => createRelations st inputs now
  | Op.addObs obs now => (addObservations st obs now).1
  | Op.delObs dels now => deleteObservations st dels now
  | Op.updateRel inp now =>
    match updateRelation st inp now with
    | Except.ok st1 => st1
    | Except.error _ => st
  | Op.delEnts names => deleteEntities st names
  | Op.delRels keys => deleteRelations st keys

/-- Execute a sequence of operations. -/
def execOps (svc : EmbedSvc) (st : KGState) (ops : List Op) : KGState :=
  ops.foldl (execOp svc) st

/-- Side condition for the amended uniqueness invariant: every `createEntities`
call in the sequence uses batch names that are pairwise distinct and have no
current row in its pre-state. -/
def createsFresh (svc : EmbedSvc) : KGState → List Op → Bool
  | _, [] => true
  | st, op :: rest =>
    (match op with
     | Op.createEnts inputs _ =>
       decide ((inputs.map (fun i => i.name)).Nodup) &&
         inputs.all (fun i => (currents st i.name).isEmpty)
     | _ => true) && createsFresh svc (execOp svc st op) rest

/-- Case-insensitive containment, the effect of matching a property against
the regex `(?i).*query.*` (escaping of regex metacharacters elided). -/
def strContains (s pat : String) : Bool :=
  if pat = "" then true else (s.splitOn pat).length ≥ 2

def strContainsCI (s pat : String) : Bool :=
  strContains s.toLower pat.toLower

/-- Observation lists are stored as a JSON string; the text search matches
against that serialization (string escaping elided). -/
def obsJson (l : List String) : String :=
  "[" ++ String.intercalate "," (l.map (fun s => "\"" ++ s ++ "\"")) ++ "]"

/-- The `searchNodes` match condition:
`e.name =~ $query OR e.entityType =~ $query OR e.observations =~ $query`. -/
def matchesQuery (q : String) (e : EntityRow) : Bool :=
  strContainsCI e.name q || strContainsCI e.entityType q || strContainsCI (obsJson e.observations) q

/-- Search options (`SearchOptions & Neo4jSemanticSearchOptions`). -/
structure SemOptions where
  limit : Option Nat := none
  entityTypes : Option (List String) := none
  minSimilarity : Option ℚ := none
  queryVector : Option (List ℚ) := none
deriving DecidableEq

/-- The entity-type filter is added to the query only when `entityTypes` is
supplied and non-empty. -/
def typeOk (opts : SemOptions) (t : String) : Bool :=
  match opts.entityTypes with
  | some ts => if ts.isEmpty then true else ts.contains t
  | none => true

/-- A query result graph, as the selected store rows (`total`/`timeTaken`
bookkeeping elided). -/
structure SearchResult where
  entities : List EntityRow
  relations : List RelRow
deriving DecidableEq

/-- Whether relationship row `r` is attached on both sides to rows whose names
are in `names` (the hydration pattern `from.name IN $names AND to.name IN $names`). -/
def edgeNamesIn (st : KGState) (r : RelRow) (names : List String) : Bool :=
  (st.entities.any (fun a => a.id == r.fromId && names.contains a.name)) &&
  (st.entities.any (fun b => b.id == r.toId && names.contains b.name))

/-- `searchNodes`: case-insensitive text match over current entities (with the
optional type filter and limit), then hydrate the current relations whose both
endpoints are in the found name set. -/
def searchNodes (st : KGState) (q : String) (opts : SemOptions) : SearchResult :=
  let limit := jsOrNat opts.limit 10
  let entities := (st.entities.filter (fun e =>
    matchesQuery q e && typeOk opts e.entityType && e.validTo == none)).take limit
  let entityNames := entities.map (fun e => e.name)
  if entityNames.isEmpty then { entities := entities, relations := [] }
  else
    { entities := entities
      relations := st.relations.filter (fun r =>
        r.validTo == none && edgeNamesIn st r entityNames) }

/-- `openNodes`: current entities with the given names plus the current
relations between them. -/
def openNodes (st : KGState) (names : List String) : SearchResult :=
  if names.isEmpty then { entities := [], relations := [] }
  else
    { entities := st.entities.filter (fun e =>
        names.contains e.name && e.validTo == none)
      relations := st.relations.filter (fun r =>
        r.validTo == none && edgeNamesIn st r names) }

/-- A ranked candidate yielded by the native vector index
(`db.index.vector.queryNodes` YIELD node, score: only `name`, `entityType` and
the score are projected). -/
structure Candidate where
  name : String
  entityType : String
  score : ℚ
deriving DecidableEq

/-- The native vector index, an external collaborator: top-k lookup for a
query vector. -/
def VectorIndex := Nat → List ℚ → List Candidate

/-- An entity row paired with its similarity score, as assembled by
`findSimilarEntities`. -/
structure ScoredEntity where
  row : EntityRow
  score : ℚ
deriving DecidableEq

/-- `findSimilarEntities`: run the native index (no similarity floor in this
query, `ORDER BY score DESC`), resolve each candidate through `getEntity`,
keep only current rows, cap at `limit`. -/
def findSimilarEntities (st : KGState) (index : VectorIndex) (qv : List ℚ)
    (limit : Nat) : List ScoredEntity :=
  let recs := (index limit qv).mergeSort (fun a b => b.score ≤ a.score)
  (((recs.filterMap (fun c => (getEntity st c.name).map (fun e =>
      ({ row := e, score := c.score } : ScoredEntity)))).filter
    (fun se => se.row.validTo == none)).take limit)

/-- The candidate list produced by the direct vector query in `semanticSearch`:
`CALL db.index.vector.queryNodes($limit, $embedding) YIELD node, score
WHERE score >= $minScore ... ORDER BY score DESC`. -/
def directCandidates (index : VectorIndex) (qv : List ℚ) (searchLimit : Nat)
    (minSimilarity : ℚ) : List Candidate :=
  ((index searchLimit qv).filter (fun c => minSimilarity ≤ c.score)).mergeSort
    (fun a b => b.score ≤ a.score)

/-- The fallback branch of the vector path: `findSimilarEntities` with an
oversampled limit, then filter by the similarity floor and the optional
entity-type allow-list, then cap at the requested limit. -/
def fallbackFiltered (st : KGState) (index : VectorIndex) (qv : List ℚ)
    (searchLimit : Nat) (minSimilarity : ℚ) (opts : SemOptions) : List ScoredEntity :=
  let results := findSimilarEntities st index qv (2 * searchLimit)
  (((results.filter (fun r => minSimilarity ≤ r.score)).filter (fun r =>
    match opts.entityTypes with
    | none => true
    | some ts => if ts.isEmpty then true else ts.contains r.row.entityType)).take searchLimit)

/-- The vector branch of `semanticSearch` (entered only when the caller
supplied `options.queryVector`): try the direct vector query; on its failure
(`directOk = false`) fall back to `findSimilarEntities` with post-hoc
filtering.  Zero matches yield an empty graph. -/
def semanticVectorPath (st : KGState) (opts : SemOptions) (qv : List ℚ)
    (index : VectorIndex) (directOk : Bool) : SearchResult :=
  let searchLimit := jsOrNat opts.limit 10
  let minSimilarity := jsOrQ opts.minSimilarity (3/5)
  if directOk then
    let cands := directCandidates index qv searchLimit minSimilarity
    if cands.isEmpty then { entities := [], relations := [] }
    else
      let entities := cands.filterMap (fun c => getEntity st c.name)
      if entities.isEmpty then { entities := [], relations := [] }
      else openNodes st (entities.map (fun e => e.name))
  else
    let filteredResults := fallbackFiltered st index qv searchLimit minSimilarity opts
    if filteredResults.isEmpty then { entities := [], relations := [] }
    else openNodes st (filteredResults.map (fun r => r.row.name))

/-- `semanticSearch`.  Control flow follows the source's if/else-if chain:

* no query vector supplied and an embedding service available — the query text
  is embedded into `options.queryVector` (failures are caught and logged), but
  the vector branch is the `else if` of the same chain and is not re-entered,
  so control falls through to the text search either way;
* a query vector supplied by the caller — the vector branch;
* otherwise — the text search fallback (`searchNodes` with the floored
  limit). -/
def semanticSearch (st : KGState) (q : String) (opts : SemOptions)
    (svc : EmbedSvc) (index : VectorIndex) (directOk : Bool) : SearchResult :=
  if opts.queryVector.isNone && svc.isSome then
    searchNodes st q { opts with limit := some (jsOrNat opts.limit 10) }
  else
    match opts.queryVector with
    | some qv => semanticVectorPath st opts qv index directOk
    | none => searchNodes st q { opts with limit := some (jsOrNat opts.limit 10) }

/-- `validFrom <= $timestamp AND (validTo IS NULL OR validTo > $timestamp)`. -/
def validAt (t : Nat) (validFrom : Nat) (validTo : Option Nat) : Bool :=
  validFrom ≤ t &&
    match validTo with
    | none => true
    | some vt => t < vt

/-- `getGraphAtTime`: the rows valid at the given instant.  The relation
pattern `(from:Entity)-[r]->(to:Entity)` requires the attached nodes to exist;
the temporal condition is on `r` only. -/
def getGraphAtTime (st : KGState) (t : Nat) : SearchResult :=
  { entities := st.entities.filter (fun e => validAt t e.validFrom e.validTo)
    relations := st.relations.filter (fun r =>
      (st.entities.any (fun a => a.id == r.fromId)) &&
      (st.entities.any (fun b => b.id == r.toId)) &&
      validAt t r.validFrom r.validTo) }

/-- Every relationship row is attached to existing node rows on both sides
(always true of a real graph store, where `DETACH DELETE` removes edges with
their nodes). -/
def edgesAttached (st : KGState) : Prop :=
  ∀ r ∈ st.relations,
    (st.entities.any (fun a => a.id == r.fromId)) = true ∧
    (st.entities.any (fun b => b.id == r.toId)) = true

/-- The relation object built by `relationshipToRelation`: only `from`, `to`,
`relationType`, `strength`, `confidence` and a metadata bag holding
`createdAt`/`updatedAt`.  The row's top-level temporal properties are not
copied, so reading `validFrom`/`createdAt` off this object through the
`ExtendedRelation` cast yields `undefined` — modelled by the two fields below,
always set to `none` by the conversion. -/
structure ConvRelation where
  fromName : String
  toName : String
  relationType : String
  strength : Option ℚ
  confidence : Option ℚ
  metaCreatedAt : Nat
  metaUpdatedAt : Nat
  castValidFrom : Option Nat
  castCreatedAt : Option Nat
deriving DecidableEq

/-- `relationshipToRelation` (conversion of a stored relationship row into the
caller-facing relation shape). -/
def relationshipToRelation (r : RelRow) (fromN toN : String) (now : Nat) : ConvRelation :=
  { fromName := fromN
    toName := toN
    relationType := r.relationType
    strength := r.strength
    confidence := r.confidence
    metaCreatedAt := jsOrNat0 r.createdAt now
    metaUpdatedAt := jsOrNat0 r.updatedAt now
    castValidFrom := none
    castCreatedAt := none }

/-- The name of the node row with the given id, for reading `from.name` /
`to.name` off a matched pattern. -/
def nameOfId (st : KGState) (i : Nat) : Option String :=
  (st.entities.find? (fun e => e.id == i)).map (fun e => e.name)

/-- The current relations with their attached endpoint names, converted. -/
def currentConvRelations (st : KGState) (now : Nat) : List ConvRelation :=
  (st.relations.filter (fun r => r.validTo == none)).filterMap (fun r =>
    match nameOfId st r.fromId, nameOfId st r.toId with
    | some f, some t => some (relationshipToRelation r f t now)
    | _, _ => none)

/-- Temporal decay configuration (`decayConfig`, defaults
`halfLifeDays = 30`, `minConfidence = 0.1`). -/
structure DecayConfig where
  enabled : Bool
  halfLifeDays : ℚ
  minConfidence : ℚ
deriving DecidableEq

/-- A caller-facing relation after the decay pass (confidence becomes a real
number). -/
structure DecayedRelation where
  fromName : String
  toName : String
  relationType : String
  strength : Option ℚ
  confidence : Option ℝ
  metaCreatedAt : Nat
  metaUpdatedAt : Nat

/-- The graph returned by `getDecayedGraph`. -/
structure DecayedGraph where
  entities : List EntityRow
  relations : List DecayedRelation

/-- A converted relation passed through unchanged (the disabled-decay path). -/
noncomputable def undecayedRelation (c : ConvRelation) : DecayedRelation :=
  { fromName := c.fromName
    toName := c.toName
    relationType := c.relationType
    strength := c.strength
    confidence := c.confidence.map (fun q => (q : ℝ))
    metaCreatedAt := c.metaCreatedAt
    metaUpdatedAt := c.metaUpdatedAt }

/-- The decay applied to one converted relation by `getDecayedGraph`:
`decayFactor = ln(0.5) / halfLifeMs`,
`ageDiff = startTime - (relation.validFrom || relation.createdAt || startTime)`
(read off the converted relation object), clamped below by `minConfidence`. -/
noncomputable def decayRelation (cfg : DecayConfig) (startTime : Nat)
    (c : ConvRelation) : DecayedRelation :=
  match c.confidence with
  | none => undecayedRelation c
  | some c0 =>
    let halfLifeMs : ℝ := (cfg.halfLifeDays : ℝ) * 24 * 60 * 60 * 1000
    let decayFactor : ℝ := Real.log (1/2) / halfLifeMs
    let ageDiff : ℝ :=
      (startTime : ℝ) - (jsOrNat c.castValidFrom (jsOrNat c.castCreatedAt startTime) : ℝ)
    let decayed : ℝ := (c0 : ℝ) * Real.exp (decayFactor * ageDiff)
    let final : ℝ := if decayed < (cfg.minConfidence : ℝ) then (cfg.minConfidence : ℝ) else decayed
    { fromName := c.fromName
      toName := c.toName
      relationType := c.relationType
      strength := c.strength
      confidence := some final
      metaCreatedAt := c.metaCreatedAt
      metaUpdatedAt := c.metaUpdatedAt }

/-- `loadGraph`: the current entities and current converted relations,
untouched. -/
noncomputable def loadGraph (st : KGState) (now : Nat) : DecayedGraph :=
  { entities := st.entities.filter (fun e => e.validTo == none)
    relations := (currentConvRelations st now).map undecayedRelation }

/-- `getDecayedGraph`: when decay is disabled, `loadGraph` unchanged; when
enabled, the same graph with the decay pass applied to each relation carrying
a confidence. -/
noncomputable def getDecayedGraph (st : KGState) (cfg : DecayConfig) (now : Nat) : DecayedGraph :=
  if cfg.enabled = false then loadGraph st now
  else
    { entities := st.entities.filter (fun e => e.validTo == none)
      relations := (currentConvRelations st now).map (decayRelation cfg now) }

/-- Sum of squares of a real vector. -/
def sumSq (v : List ℝ) : ℝ :=
  (v.map (fun x => x * x)).sum

/-- L2 magnitude, as computed by `LocalEmbeddingService._normalizeVector`. -/
noncomputable def magnitude (v : List ℝ) : ℝ :=
  Real.sqrt (sumSq v)

/-- `_normalizeVector`: divide componentwise by a positive magnitude; when the
magnitude is 0, set the first component to 1 to obtain a valid unit vector. -/
noncomputable def normalizeVector (v : List ℝ) : List ℝ :=
  let m := magnitude v
  if 0 < m then v.map (fun x => x / m)
  else
    match v with
    | [] => [1]
    | _ :: t => 1 :: t

/-- `generateEmbedding` after the external model produced the raw feature
vector `raw`: reject an empty vector, otherwise normalize and return it. -/
noncomputable def generateEmbedding (raw : List ℝ) : Except String (List ℝ) :=
  if raw.isEmpty then Except.error "Invalid embedding returned from local model"
  else Except.ok (normalizeVector raw)

/-! ### Concrete inputs used by counterexamples and witnesses -/

def mkRow (i : Nat) (nm ty : String) (obs : List String) : EntityRow :=
  { id := i, name := nm, entityType := ty, observations := obs, version := 1,
    createdAt := 0, updatedAt := 0, validFrom := 0, validTo := none,
    changedBy := none, embedding := none }

def ceInpA : EntityInput :=
  { name := "A", entityType := "T", observations := [] }

/-- A state with one current entity "A" carrying observation "x". -/
def stA : KGState :=
  { entities := [mkRow 0 "A" "T" ["x"]], relations := [], nextId := 10 }

/-- A state with current entities "A" and "B" and no relations. -/
def stAB : KGState :=
  { entities := [mkRow 0 "A" "T" ["x"], mkRow 1 "B" "T" ["y"]],
    relations := [], nextId := 10 }

def wUpdInp : RelUpdateInput := { fromName := "A", toName := "B", relationType := "t" }

def wObsMissing : ObsInput := { entityName := "Missing", contents := ["z"] }

def wObsRest : List ObsInput := [{ entityName := "A", contents := ["w"] }]

/-- A current relation row attached to the two rows of `stAB`. -/
def relAB : RelRow :=
  { id := 5, fromId := 0, toId := 1, relationType := "rt", strength := none,
    confidence := none, metadata := none, version := 1, createdAt := 2,
    updatedAt := 2, validFrom := 2, validTo := none, changedBy := none }

/-- `stAB` plus the relation `relAB`. -/
def stRel : KGState :=
  { entities := [mkRow 0 "A" "T" ["x"], mkRow 1 "B" "T" ["y"]],
    relations := [relAB], nextId := 10 }

def c6SaveA : SaveEntityInput :=
  { name := "A", entityType := "T", observations := [], id := some 1,
    validFrom := some 1, validTo := some 5 }

def c6SaveB : SaveEntityInput :=
  { name := "B", entityType := "T", observations := [], id := some 2,
    validFrom := some 1 }

/-- A store reachable through `saveGraph` in which "A" has only a historical
(closed) row and "B" has a current row. -/
def stC6 : KGState := saveGraph [c6SaveA, c6SaveB] [] 10

def c6Rel : RelInput := { fromName := "A", toName := "B", relationType := "rt" }

/-- A current relation one half-life old at the decay read instant. -/
def c5Rel : RelRow :=
  { id := 7, fromId := 0, toId := 1, relationType := "rt", strength := some (1/2),
    confidence := some (4/5), metadata := none, version := 1, createdAt := 0,
    updatedAt := 0, validFrom := 0, validTo := none, changedBy := none }

def stC5 : KGState :=
  { entities := [mkRow 0 "A" "T" [], mkRow 1 "B" "T" []],
    relations := [c5Rel], nextId := 10 }

/-- The default decay configuration (enabled, half-life 30 days,
minimum confidence 0.1). -/
def cfgC5 : DecayConfig :=
  { enabled := true, halfLifeDays := 30, minConfidence := 1/10 }

/-- A current entity of type "B" with a stored embedding. -/
def rowE : EntityRow :=
  { id := 1, name := "E", entityType := "B", observations := [], version := 1,
    createdAt := 0, updatedAt := 0, validFrom := 0, validTo := none,
    changedBy := none, embedding := some [1] }

def stC7 : KGState := { entities := [rowE], relations := [], nextId := 2 }

/-- A native index answering every lookup with the single candidate "E"
(type "B") scored 0.9. -/
def idxE : VectorIndex := fun _ _ => [{ name := "E", entityType := "B", score := 9/10 }]

/-- Options carrying an explicit query vector and an entity-type allow-list
that excludes "B". -/
def optsC7 : SemOptions := { entityTypes := some ["A"], queryVector := some [1] }

/-- An embedding service that always succeeds. -/
def svcOk : String → Except String (List ℚ) := fun _ => Except.ok [1]

/-- A native index returning no candidates. -/
def idxEmpty : VectorIndex := fun _ _ => []

def wOps : List Op :=
  [Op.createEnts [ceInpA] 1,
   Op.addObs [{ entityName := "A", contents := ["y"] }] 2,
   Op.delEnts ["A"]]

/-! ### Helper lemmas -/

theorem curP_iff (n : String) (e : EntityRow) :
    curP n e = true ↔ e.name = n ∧ e.validTo = none := by
  simp [curP]

theorem two_mem_two_le_length {α : Type} {l : List α} {a b : α}
    (ha : a ∈ l) (hb : b ∈ l) (hne : a ≠ b) : 2 ≤ l.length := by
  induction l with
  | nil => cases ha
  | cons x t ih =>
    rcases List.mem_cons.mp ha with rfl | hat
    · rcases List.mem_cons.mp hb with rfl | hbt
      · exact absurd rfl hne
      · have h1 : 1 ≤ t.length := List.length_pos.mpr (List.ne_nil_of_mem hbt)
        simpa using Nat.succ_le_succ h1
    · rcases List.mem_cons.mp hb with rfl | hbt
      · have h1 : 1 ≤ t.length := List.length_pos.mpr (List.ne_nil_of_mem hat)
        simpa using Nat.succ_le_succ h1
      · have h2 := ih hat hbt
        simp only [List.length_cons]
        omega

theorem two_le_length_filter {α : Type} {p : α → Bool} {l : List α} {a b : α}
    (ha : a ∈ l) (hb : b ∈ l) (hne : a ≠ b) (hpa : p a = true) (hpb : p b = true) :
    2 ≤ (l.filter p).length :=
  two_mem_two_le_length (List.mem_filter.mpr ⟨ha, hpa⟩) (List.mem_filter.mpr ⟨hb, hpb⟩) hne

theorem length_filter_map_le {α : Type} (g : α → α) (p : α → Bool) (l : List α)
    (h : ∀ e ∈ l, p (g e) = true → p e = true) :
    ((l.map g).filter p).length ≤ (l.filter p).length := by
  induction l with
  | nil => simp
  | cons x t ih =>
    have ih2 := ih (fun e he => h e (List.mem_cons_of_mem x he))
    simp only [List.map_cons, List.filter_cons]
    by_cases hgx : p (g x) = true
    · have hx : p x = true := h x (List.mem_cons_self x t) hgx
      rw [if_pos hgx, if_pos hx]
      simpa using ih2
    · rw [if_neg hgx]
      by_cases hx : p x = true
      · rw [if_pos hx]
        exact le_trans ih2 (by simp)
      · rw [if_neg hx]
        exact ih2

theorem find?_append_of_none {α : Type} {p : α → Bool} {l₁ l₂ : List α}
    (h : ∀ x ∈ l₁, p x = false) : List.find? p (l₁ ++ l₂) = List.find? p l₂ := by
  rw [List.find?_append]
  have h1 : List.find? p l₁ = none := by
    rw [List.find?_eq_none]
    intro x hx
    simp [h x hx]
  rw [h1]
  rfl

/-- Closing the current row for a name and appending its next version
preserves the per-name current-row bound. -/
theorem close_create_atMostOne
    (l : List EntityRow) (cur newRow : EntityRow) (now : Nat)
    (hmem : cur ∈ l) (hcur : cur.validTo = none)
    (hname : newRow.name = cur.name) (hnew : newRow.validTo = none)
    (hinv : ∀ n, (l.filter (curP n)).length ≤ 1) :
    ∀ n, (((l.map (fun e => if e.id = cur.id then { e with validTo := some now } else e))
        ++ [newRow]).filter (curP n)).length ≤ 1 := by
  intro n
  rw [List.filter_append, List.length_append]
  by_cases hn : n = cur.name
  · subst hn
    have hzero : ((l.map (fun e =>
        if e.id = cur.id then { e with validTo := some now } else e)).filter
          (curP cur.name)) = [] := by
      rw [List.filter_eq_nil_iff]
      intro x hx
      obtain ⟨e, he, rfl⟩ := List.mem_map.mp hx
      by_cases hid : e.id = cur.id
      · rw [if_pos hid]
        simp [curP]
      · rw [if_neg hid]
        intro hpe
        have hecur : e ≠ cur := fun hh => hid (congrArg EntityRow.id hh)
        have hpc : curP cur.name cur = true := (curP_iff _ _).mpr ⟨rfl, hcur⟩
        have h2 := two_le_length_filter he hmem hecur hpe hpc
        have h1 := hinv cur.name
        omega
    rw [hzero]
    have hle : (List.filter (curP cur.name) [newRow]).length ≤ 1 :=
      le_trans (List.length_filter_le _ _) (by simp)
    simpa using hle
  · have hone : List.filter (curP n) [newRow] = [] := by
      rw [List.filter_eq_nil_iff]
      intro x hx
      rcases List.mem_singleton.mp hx with rfl
      intro hpx
      exact hn (hname ▸ ((curP_iff _ _).mp hpx).1).symm
    rw [hone]
    have hmap : ((l.map (fun e =>
        if e.id = cur.id then { e with validTo := some now } else e)).filter
          (curP n)).length ≤ (l.filter (curP n)).length := by
      apply length_filter_map_le
      intro e _ hpe
      by_cases hid : e.id = cur.id
      · rw [if_pos hid] at hpe
        exact absurd ((curP_iff _ _).mp hpe).2 (by simp)
      · rwa [if_neg hid] at hpe
    have h1 := hinv n
    simp only [List.length_nil]
    omega

/-- The invariant only depends on the entity rows. -/
theorem atMostOneCurrent_of_entities_eq {s1 s2 : KGState}
    (h : s2.entities = s1.entities) (hinv : atMostOneCurrent s1) :
    atMostOneCurrent s2 := by
  intro n
  have : currents s2 n = currents s1 n := by
    unfold currents
    rw [h]
  rw [this]
  exact hinv n

theorem createRelations_entities (st : KGState) (inputs : List RelInput) (now : Nat) :
    (createRelations st inputs now).entities = st.entities := by
  induction inputs generalizing st with
  | nil => rfl
  | cons i rest ih =>
    show (createRelations (createRelationStep now st i) rest now).entities = st.entities
    rw [ih]
    unfold createRelationStep
    dsimp only
    split <;> rfl

theorem deleteRelations_entities (st : KGState) (keys : List RelKey) :
    (deleteRelations st keys).entities = st.entities := by
  induction keys generalizing st with
  | nil => rfl
  | cons k rest ih =>
    show (deleteRelations _ rest).entities = st.entities
    rw [ih]

theorem updateRelation_entities (st : KGState) (inp : RelUpdateInput) (now : Nat)
    (st1 : KGState) (h : updateRelation st inp now = Except.ok st1) :
    st1.entities = st.entities := by
  unfold updateRelation at h
  split at h
  · cases h
  · cases h
    rfl

theorem addObsApply_pres (st : KGState) (cur : EntityRow) (newObs : List String)
    (now : Nat) (hmem : cur ∈ st.entities) (hvt : cur.validTo = none)
    (h : atMostOneCurrent st) : atMostOneCurrent (addObsApply st cur newObs now) := by
  intro n
  exact close_create_atMostOne st.entities cur
    (addObsNewRow st cur newObs now) now hmem hvt rfl rfl h n

theorem delObsApply_pres (st : KGState) (cur : EntityRow) (toRemove : List String)
    (now : Nat) (hmem : cur ∈ st.entities) (hvt : cur.validTo = none)
    (h : atMostOneCurrent st) : atMostOneCurrent (delObsApply st cur toRemove now) := by
  intro n
  exact close_create_atMostOne st.entities cur
    { id := st.nextId, name := cur.name, entityType := cur.entityType,
      observations := cur.observations.filter (fun o => !(toRemove.contains o)),
      version := cur.version + 1,
      createdAt := cur.createdAt, updatedAt := now, validFrom := now,
      validTo := none, changedBy := none, embedding := none } now hmem hvt rfl rfl h n

theorem addObservationsItem_fst_pres (st : KGState) (ob : ObsInput) (now : Nat)
    (h : atMostOneCurrent st) : atMostOneCurrent (addObservationsItem st ob now).1 := by
  by_cases hg : ob.entityName = "" ∨ ob.contents = []
  · simp only [addObservationsItem, if_pos hg]
    exact h
  · cases hfind : getEntity st ob.entityName with
    | none => simp only [addObservationsItem, if_neg hg, hfind]; exact h
    | some cur =>
      simp only [addObservationsItem, if_neg hg, hfind]
      split
      · exact h
      · exact addObsApply_pres st cur _ now (List.mem_of_find?_eq_some hfind)
          ((curP_iff _ _).mp (List.find?_some hfind)).2 h

theorem deleteObservationsItem_pres (st : KGState) (d : DelObsInput) (now : Nat)
    (h : atMostOneCurrent st) : atMostOneCurrent (deleteObservationsItem st d now) := by
  by_cases hg : d.entityName = "" ∨ d.observations = []
  · simp only [deleteObservationsItem, if_pos hg]
    exact h
  · cases hfind : getEntity st d.entityName with
    | none => simp only [deleteObservationsItem, if_neg hg, hfind]; exact h
    | some cur =>
      simp only [deleteObservationsItem, if_neg hg, hfind]
      exact delObsApply_pres st cur _ now (List.mem_of_find?_eq_some hfind)
        ((curP_iff _ _).mp (List.find?_some hfind)).2 h

/-- The state component of `addObservations` is the fold of the per-item
state transitions. -/
theorem addObservations_fst (st : KGState) (obs : List ObsInput) (now : Nat) :
    (addObservations st obs now).1 =
      obs.foldl (fun s ob => (addObservationsItem s ob now).1) st := by
  suffices hgen : ∀ (acc : List ObsResult) (s : KGState),
      (obs.foldl (fun a ob =>
        ((addObservationsItem a.1 ob now).1, a.2 ++ (addObservationsItem a.1 ob now).2.toList))
        (s, acc)).1 = obs.foldl (fun s ob => (addObservationsItem s ob now).1) s by
    exact hgen [] st
  induction obs with
  | nil => intro acc s; rfl
  | cons ob rest ih =>
    intro acc s
    exact ih _ _

theorem addObservations_fst_pres (st : KGState) (obs : List ObsInput) (now : Nat)
    (h : atMostOneCurrent st) : atMostOneCurrent (addObservations st obs now).1 := by
  rw [addObservations_fst]
  induction obs generalizing st with
  | nil => exact h
  | cons ob rest ih =>
    exact ih _ (addObservationsItem_fst_pres st ob now h)

theorem deleteObservations_pres (st : KGState) (dels : List DelObsInput) (now : Nat)
    (h : atMostOneCurrent st) : atMostOneCurrent (deleteObservations st dels now) := by
  induction dels generalizing st with
  | nil => exact h
  | cons d rest ih =>
    exact ih _ (deleteObservationsItem_pres st d now h)

theorem deleteEntities_pres (st : KGState) (names : List String)
    (h : atMostOneCurrent st) : atMostOneCurrent (deleteEntities st names) := by
  intro n
  have hsub : ((st.entities.filter (fun e => !(names.contains e.name))).filter
      (curP n)).Sublist (st.entities.filter (curP n)) :=
    List.Sublist.filter (curP n) (List.filter_sublist st.entities)
  exact le_trans hsub.length_le (h n)

/-- `createEntityStep` semantics of the current-row sets per name. -/
theorem currents_createEntityStep (svc : EmbedSvc) (now : Nat) (st : KGState)
    (i : EntityInput) (n : String) :
    currents (createEntityStep svc now st i) n =
      if i.name = n then currents st n ++ [createdEntityRow svc now st.nextId i]
      else currents st n := by
  unfold createEntityStep currents
  rw [List.filter_append]
  by_cases hn : i.name = n
  · rw [if_pos hn]
    congr 1
    simp [curP, createdEntityRow, hn]
  · rw [if_neg hn]
    have hnil : List.filter (curP n) [createdEntityRow svc now st.nextId i] = [] := by
      rw [List.filter_eq_nil_iff]
      intro x hx
      rcases List.mem_singleton.mp hx with rfl
      simp [curP, createdEntityRow, hn]
    rw [hnil, List.append_nil]

theorem createEntities_pres (svc : EmbedSvc) (now : Nat) :
    ∀ (inputs : List EntityInput) (st : KGState), atMostOneCurrent st →
      (inputs.map (fun i => i.name)).Nodup →
      (∀ i ∈ inputs, currents st i.name = []) →
      atMostOneCurrent (createEntities st inputs now svc) := by
  intro inputs
  induction inputs with
  | nil => intro st h _ _; exact h
  | cons i rest ih =>
    intro st h hnd hfresh
    show atMostOneCurrent (createEntities (createEntityStep svc now st i) rest now svc)
    have hstep : atMostOneCurrent (createEntityStep svc now st i) := by
      intro n
      rw [currents_createEntityStep]
      by_cases hn : i.name = n
      · rw [if_pos hn]
        have : currents st n = [] := hn ▸ hfresh i (List.mem_cons_self i rest)
        rw [this]
        simp
      · rw [if_neg hn]
        exact h n
    have hnd2 : (rest.map (fun i => i.name)).Nodup := (List.nodup_cons.mp hnd).2
    have hni : i.name ∉ rest.map (fun j => j.name) := (List.nodup_cons.mp hnd).1
    apply ih _ hstep hnd2
    intro j hj
    rw [currents_createEntityStep]
    have hne : i.name ≠ j.name := by
      intro hcontra
      exact hni (hcontra ▸ List.mem_map_of_mem (fun k => k.name) hj)
    rw [if_neg hne]
    exact hfresh j (List.mem_cons_of_mem i hj)

theorem execOps_pres_aux (svc : EmbedSvc) (ops : List Op) :
    ∀ st : KGState, atMostOneCurrent st → createsFresh svc st ops = true →
      atMostOneCurrent (execOps svc st ops) := by
  induction ops with
  | nil => intro st hinv _; exact hinv
  | cons op rest ih =>
    intro st hinv hfresh
    unfold createsFresh at hfresh
    rw [Bool.and_eq_true] at hfresh
    obtain ⟨hc, hrest⟩ := hfresh
    show atMostOneCurrent (execOps svc (execOp svc st op) rest)
    apply ih _ ?_ hrest
    cases op with
    | createEnts inputs now =>
      rw [Bool.and_eq_true] at hc
      obtain ⟨hnd, hall⟩ := hc
      exact createEntities_pres svc now inputs st hinv (of_decide_eq_true hnd)
        (fun i hi => List.isEmpty_iff.mp ((List.all_eq_true.mp hall) i hi))
    | createRels inputs now =>
      exact atMostOneCurrent_of_entities_eq (createRelations_entities st inputs now) hinv
    | addObs obs now => exact addObservations_fst_pres st obs now hinv
    | delObs dels now => exact deleteObservations_pres st dels now hinv
    | updateRel inp now =>
      simp only [execOp]
      cases hup : updateRelation st inp now with
      | ok s1 =>
        exact atMostOneCurrent_of_entities_eq (updateRelation_entities st inp now s1 hup) hinv
      | error e => exact hinv
    | delEnts names => exact deleteEntities_pres st names hinv
    | delRels keys =>
      exact atMostOneCurrent_of_entities_eq (deleteRelations_entities st keys) hinv

/-- C2 (amended): after any sequence of `createEntities`, `createRelations`,
`addObservations`, `deleteObservations`, `updateRelation` and delete
operations in which every `createEntities` call uses batch names that are
pairwise distinct and have no current row at that point, every entity name
has at most one stored row with `validTo = null`.  (The unamended claim is
refuted by `createEntities_duplicate_current`: `createEntities` never checks
for an existing current row with the same name.) -/
theorem execOps_atMostOneCurrent (svc : EmbedSvc) (st : KGState) (ops : List Op)
    (hinv : atMostOneCurrent st) (hfresh : createsFresh svc st ops = true) :
    atMostOneCurrent (execOps svc st ops) :=
  execOps_pres_aux svc ops st hinv hfresh

/-- C2 counterexample: two `createEntities` calls with the same name leave two
rows for "A" with `validTo = null` at once — the invariant as claimed is
violated by a sequence of the listed operations. -/
theorem createEntities_duplicate_current :
    (currents (execOps none emptyState
      [Op.createEnts [ceInpA] 1, Op.createEnts [ceInpA] 2]) "A").length = 2 := by
  rfl

/-- C3 counterexample: `updateRelation` on a `(from, to, relationType)` that
matches no current relation throws `Relation not found` to the caller instead
of skipping with a diagnostic. -/
theorem updateRelation_throws_on_missing :
    updateRelation stAB { fromName := "A", toName := "B", relationType := "t" } 5
      = Except.error "Relation not found: A -> B (t)" := by
  rfl

/-- C3 (amended): `addObservations` on an unknown entity name skips that item
with a diagnostic and keeps processing the rest of the batch, but
`updateRelation` on an unmatched `(from, to, relationType)` surfaces a
`Relation not found` error to the caller (the transaction is rolled back). -/
theorem notFound_semantics (st : KGState) (inp : RelUpdateInput) (now : Nat)
    (o : ObsInput) (rest : List ObsInput) (now2 : Nat)
    (hrel : st.relations.find? (fun r =>
        relMatchesNames st r inp.fromName inp.toName &&
        r.relationType == inp.relationType && r.validTo == none) = none)
    (hent : getEntity st o.entityName = none) :
    updateRelation st inp now = Except.error ("Relation not found: " ++ inp.fromName ++
        " -> " ++ inp.toName ++ " (" ++ inp.relationType ++ ")") ∧
    addObservations st (o :: rest) now2 = addObservations st rest now2 := by
  constructor
  · unfold updateRelation
    rw [hrel]
  · have hitem : addObservationsItem st o now2 = (st, none) := by
      by_cases hg : o.entityName = "" ∨ o.contents = []
      · simp [addObservationsItem, hg]
      · simp [addObservationsItem, hg, hent]
    simp [addObservations, hitem]

/-- Witness for `notFound_semantics` at a concrete state with entities but no
relations. -/
theorem notFound_semantics_witness :
    updateRelation stAB wUpdInp 6 = Except.error "Relation not found: A -> B (t)" ∧
    addObservations stAB (wObsMissing :: wObsRest) 7 = addObservations stAB wObsRest 7 :=
  notFound_semantics stAB wUpdInp 6 wObsMissing wObsRest 7 rfl rfl

/-- After the close-and-recreate step, the only current row for the name is
the newly created version. -/
theorem getEntity_addObsApply (st : KGState) (cur : EntityRow) (newObs : List String)
    (now : Nat) (hinv : atMostOneCurrent st) (nm : String)
    (hmem : cur ∈ st.entities) (hp : curP nm cur = true) :
    getEntity (addObsApply st cur newObs now) nm = some (addObsNewRow st cur newObs now) := by
  unfold getEntity addObsApply
  dsimp only
  rw [find?_append_of_none]
  · have hnew : curP nm (addObsNewRow st cur newObs now) = true := by
      simp [curP, addObsNewRow, ((curP_iff nm cur).mp hp).1]
    simp [List.find?, hnew]
  · intro x hx
    obtain ⟨e, he, rfl⟩ := List.mem_map.mp hx
    by_cases hid : e.id = cur.id
    · rw [if_pos hid]
      simp [curP]
    · rw [if_neg hid]
      cases hpe : curP nm e with
      | false => rfl
      | true =>
        have hne : e ≠ cur := fun hh => hid (congrArg EntityRow.id hh)
        have h2 := two_le_length_filter he hmem hne hpe hp
        have h1 := hinv nm
        unfold currents at h1
        omega

theorem addObservationsItem_eq_noop (st : KGState) (ob : ObsInput) (now : Nat)
    (cur : EntityRow) (hg : ¬(ob.entityName = "" ∨ ob.contents = []))
    (hex : getEntity st ob.entityName = some cur)
    (hno : ob.contents.filter (fun c => !(cur.observations.contains c)) = []) :
    addObservationsItem st ob now
      = (st, some { entityName := ob.entityName, addedObservations := [] }) := by
  unfold addObservationsItem
  rw [if_neg hg, hex]
  dsimp only
  rw [hno]
  rfl

theorem addObservationsItem_eq_apply (st : KGState) (ob : ObsInput) (now : Nat)
    (cur : EntityRow) (hg : ¬(ob.entityName = "" ∨ ob.contents = []))
    (hex : getEntity st ob.entityName = some cur)
    (hno : ob.contents.filter (fun c => !(cur.observations.contains c)) ≠ []) :
    addObservationsItem st ob now
      = (addObsApply st cur (ob.contents.filter (fun c => !(cur.observations.contains c))) now,
         some { entityName := ob.entityName,
                addedObservations :=
                  ob.contents.filter (fun c => !(cur.observations.contains c)) }) := by
  unfold addObservationsItem
  rw [if_neg hg, hex]
  dsimp only
  rw [if_neg (fun h => hno (List.isEmpty_iff.mp h))]

/-- C4: `addObservations` is idempotent — with a current row present and a
non-empty contents list, the second identical call reports
`addedObservations = []` and leaves the store untouched (in particular the
current row's `id` and `version` are unchanged, so no new version is
created). -/
theorem addObservations_idempotent
    (st : KGState) (nm : String) (contents : List String) (now1 now2 : Nat)
    (hinv : atMostOneCurrent st) (hnm : nm ≠ "") (hc : contents ≠ [])
    (cur : EntityRow) (hex : getEntity st nm = some cur) :
    addObservations (addObservations st [{ entityName := nm, contents := contents }] now1).1
        [{ entityName := nm, contents := contents }] now2
      = ((addObservations st [{ entityName := nm, contents := contents }] now1).1,
         [{ entityName := nm, addedObservations := [] }]) := by
  have hg : ¬((({ entityName := nm, contents := contents } : ObsInput)).entityName = ""
      ∨ (({ entityName := nm, contents := contents } : ObsInput)).contents = []) := by
    rintro (h | h)
    · exact hnm h
    · exact hc h
  have hsingle : ∀ (s : KGState) (now : Nat),
      addObservations s [{ entityName := nm, contents := contents }] now
        = ((addObservationsItem s { entityName := nm, contents := contents } now).1,
           (addObservationsItem s { entityName := nm, contents := contents } now).2.toList) := by
    intro s now
    rfl
  by_cases hno : (contents.filter (fun c => !(cur.observations.contains c))) = []
  · have hitem1 := addObservationsItem_eq_noop st { entityName := nm, contents := contents }
      now1 cur hg hex hno
    have hitem2 := addObservationsItem_eq_noop st { entityName := nm, contents := contents }
      now2 cur hg hex hno
    rw [hsingle st now1, hitem1, hsingle st now2, hitem2]
    rfl
  · have hitem1 := addObservationsItem_eq_apply st { entityName := nm, contents := contents }
      now1 cur hg hex hno
    have hget1 := getEntity_addObsApply st cur
      (contents.filter (fun c => !(cur.observations.contains c))) now1 hinv nm
      (List.mem_of_find?_eq_some hex) (List.find?_some hex)
    have hfilter2 : contents.filter (fun c =>
        !(((addObsNewRow st cur
            (contents.filter (fun c2 => !(cur.observations.contains c2))) now1).observations).contains c))
          = [] := by
      rw [List.filter_eq_nil_iff]
      intro c hcmem
      show ¬(!((cur.observations ++ contents.filter
          (fun c2 => !(cur.observations.contains c2))).contains c)) = true
      by_cases hcc : c ∈ cur.observations
      · simp [hcc]
      · have hmemf : c ∈ contents.filter (fun c2 => !(cur.observations.contains c2)) :=
          List.mem_filter.mpr ⟨hcmem, by simp [hcc]⟩
        simp [hmemf]
        exact fun _ => ⟨hcmem, hcc⟩
    have hitem2 := addObservationsItem_eq_noop
      (addObsApply st cur (contents.filter (fun c => !(cur.observations.contains c))) now1)
      { entityName := nm, contents := contents } now2
      (addObsNewRow st cur (contents.filter (fun c => !(cur.observations.contains c))) now1)
      hg hget1 hfilter2
    rw [hsingle st now1, hitem1, hsingle _ now2, hitem2]
    rfl

/-- Witness for `addObservations_idempotent` on a concrete store. -/
theorem addObservations_idempotent_witness :
    addObservations (addObservations stA [{ entityName := "A", contents := ["x", "y"] }] 3).1
        [{ entityName := "A", contents := ["x", "y"] }] 4
      = ((addObservations stA [{ entityName := "A", contents := ["x", "y"] }] 3).1,
         [{ entityName := "A", addedObservations := [] }]) :=
  addObservations_idempotent stA "A" ["x", "y"] 3 4
    (fun _ => le_trans (List.length_filter_le _ _) (by decide))
    (by decide) (by decide) (mkRow 0 "A" "T" ["x"]) rfl

/-- `validAt` unfolds to the spec's inclusion condition. -/
theorem validAt_iff (t vf : Nat) (vt : Option Nat) :
    validAt t vf vt = true ↔ vf ≤ t ∧ (vt = none ∨ ∃ v, vt = some v ∧ t < v) := by
  cases vt with
  | none => simp [validAt]
  | some v => simp [validAt]

/-- C9: `getGraphAtTime t` includes an entity or relation row if and only if
`validFrom ≤ t` and `validTo` is either null or strictly greater than `t`
(for relation rows, given that every stored edge is attached to existing
node rows, as in a real graph store). -/
theorem getGraphAtTime_mem (st : KGState) (t : Nat) (hwf : edgesAttached st) :
    (∀ e : EntityRow, e ∈ (getGraphAtTime st t).entities ↔
      e ∈ st.entities ∧ (e.validFrom ≤ t ∧
        (e.validTo = none ∨ ∃ v, e.validTo = some v ∧ t < v))) ∧
    (∀ r : RelRow, r ∈ (getGraphAtTime st t).relations ↔
      r ∈ st.relations ∧ (r.validFrom ≤ t ∧
        (r.validTo = none ∨ ∃ v, r.validTo = some v ∧ t < v))) := by
  constructor
  · intro e
    unfold getGraphAtTime
    rw [List.mem_filter, validAt_iff]
  · intro r
    unfold getGraphAtTime
    rw [List.mem_filter]
    constructor
    · rintro ⟨hmem, hcond⟩
      rw [Bool.and_eq_true, Bool.and_eq_true] at hcond
      exact ⟨hmem, (validAt_iff t r.validFrom r.validTo).mp hcond.2⟩
    · rintro ⟨hmem, hcond⟩
      refine ⟨hmem, ?_⟩
      rw [Bool.and_eq_true, Bool.and_eq_true]
      exact ⟨⟨(hwf r hmem).1, (hwf r hmem).2⟩, (validAt_iff t r.validFrom r.validTo).mpr hcond⟩

/-- Witness for `getGraphAtTime_mem`: at `t = 3` the attached current relation
of `stRel` is included. -/
theorem getGraphAtTime_mem_witness :
    edgesAttached stRel ∧ relAB ∈ (getGraphAtTime stRel 3).relations :=
  ⟨by unfold edgesAttached; decide,
   ((getGraphAtTime_mem stRel 3 (by unfold edgesAttached; decide)).2 relAB).mpr
    ⟨by decide, by decide, Or.inl rfl⟩⟩

/-- C2 witness: a concrete operation sequence (create, append-observations,
hard delete) satisfying the freshness side condition keeps the invariant. -/
theorem execOps_atMostOneCurrent_witness :
    createsFresh none emptyState wOps = true ∧
      atMostOneCurrent (execOps none emptyState wOps) :=
  ⟨by decide, execOps_atMostOneCurrent none emptyState wOps
    (fun n => by simp [currents, emptyState]) (by decide)⟩

/-- C6 counterexample: in a store (loadable via `saveGraph`) where "A" has
only a closed historical row, `createRelations` does not skip the relation —
it creates an edge attached to the historical row, even though "A" has no
current version. -/
theorem createRelations_stale_endpoint :
    currents stC6 "A" = [] ∧
    (createRelations stC6 [c6Rel] 100).relations.length = 1 ∧
    (createRelations stC6 [c6Rel] 100).relations.map (fun r => r.fromId) = [1] := by
  refine ⟨by decide, by decide, by decide⟩

/-- C6 (amended): a `createRelations` item is a no-op exactly when one of the
endpoint names matches no stored row at all (current or historical); when both
names match rows the edge is created, regardless of whether the rows are
current. -/
theorem createRelations_skip_iff (st : KGState) (r : RelInput) (now : Nat) :
    createRelations st [r] now = st ↔
      ((st.entities.filter (fun e => e.name == r.fromName)).isEmpty ||
       (st.entities.filter (fun e => e.name == r.toName)).isEmpty) = true := by
  show createRelationStep now st r = st ↔ _
  unfold createRelationStep
  dsimp only
  constructor
  · intro heq
    by_cases hc : ((st.entities.filter (fun e => e.name == r.fromName)).isEmpty ||
        (st.entities.filter (fun e => e.name == r.toName)).isEmpty) = true
    · exact hc
    · exfalso
      have h1 := congrArg KGState.nextId heq
      rw [if_neg hc] at h1
      simp at h1
  · intro hc
    rw [if_pos hc]

/-- C5: with decay enabled, a relation one half-life old (validFrom = 0 at
read instant 30·86400000 ms) keeps its stored confidence 0.8 unchanged,
because `getDecayedGraph` reads `validFrom`/`createdAt` off the converted
relation object, which carries no such properties, so the age is always 0;
the spec's formula `max(C_min, c0 · e^(k·Δt))` demands 0.4 at this input. -/
theorem getDecayedGraph_ageDiff_zero :
    ((getDecayedGraph stC5 cfgC5 2592000000).relations.map (fun r => r.confidence))
        = [some ((4/5 : ℚ) : ℝ)] ∧
    max ((1 : ℝ)/10)
        ((4/5) * Real.exp ((Real.log (1/2) / (30 * 86400000)) * ((2592000000 : ℝ) - 0)))
      = 2/5 ∧
    ((4/5 : ℚ) : ℝ) ≠ 2/5 := by
  refine ⟨?_, ?_, ?_⟩
  · have hconv : currentConvRelations stC5 2592000000 =
        [{ fromName := "A", toName := "B", relationType := "rt",
           strength := some (1/2), confidence := some (4/5),
           metaCreatedAt := 2592000000, metaUpdatedAt := 2592000000,
           castValidFrom := none, castCreatedAt := none }] := by
      rfl
    have hrel : (getDecayedGraph stC5 cfgC5 2592000000).relations =
        (currentConvRelations stC5 2592000000).map (decayRelation cfgC5 2592000000) := by
      unfold getDecayedGraph
      rw [if_neg (by decide : ¬(cfgC5.enabled = false))]
    rw [hrel, hconv]
    simp only [List.map_cons, List.map_nil, decayRelation]
    norm_num [jsOrNat, cfgC5]
  · have h30 : (30 : ℝ) * 86400000 = 2592000000 := by norm_num
    have hsub : ((2592000000 : ℝ) - 0) = 2592000000 := by norm_num
    rw [h30, hsub, div_mul_cancel₀ _ (by norm_num : (2592000000 : ℝ) ≠ 0)]
    rw [Real.exp_log (by norm_num : (0 : ℝ) < 1/2)]
    rw [max_eq_right (by norm_num : (1 : ℝ)/10 ≤ 4/5 * (1/2))]
    norm_num
  · push_cast
    norm_num

/-- C7 counterexample: on the primary (direct) vector path the `entityTypes`
allow-list is not applied — a candidate of type "B" is returned even though
the allow-list only admits "A". -/
theorem semanticSearch_direct_ignores_entityTypes :
    (semanticSearch stC7 "q" optsC7 none idxE true).entities.map (fun e => e.entityType)
      = ["B"] ∧ "B" ∉ ["A"] := by
  constructor
  · have h1 : semanticSearch stC7 "q" optsC7 none idxE true
        = semanticVectorPath stC7 optsC7 [1] idxE true := rfl
    rw [h1]
    unfold semanticVectorPath
    dsimp only
    have h2 : directCandidates idxE [1] (jsOrNat optsC7.limit 10)
        (jsOrQ optsC7.minSimilarity (3/5))
        = [{ name := "E", entityType := "B", score := 9/10 }] := by
      unfold directCandidates
      have hf : (idxE (jsOrNat optsC7.limit 10) [1]).filter
          (fun c => jsOrQ optsC7.minSimilarity (3/5) ≤ c.score)
          = [{ name := "E", entityType := "B", score := 9/10 }] := by
        have hle : jsOrQ optsC7.minSimilarity (3/5) ≤ (9/10 : ℚ) := by
          norm_num [optsC7, jsOrQ]
        simp [idxE, List.filter, hle]
      rw [hf, List.mergeSort_singleton]
    rw [h2]
    decide
  · decide

/-- C7 (amended): for the direct vector lookup, candidates strictly below the
similarity floor (default 0.6) are excluded, candidates at or above it are
retained, the lookup result is ordered by descending score, and zero matches
yield an empty graph rather than an error; the `entityTypes` allow-list (and
the similarity floor again) are applied post-hoc only on the fallback path
taken when the direct query fails. -/
theorem semanticSearch_vector_contract (st : KGState) (q : String) (opts : SemOptions)
    (qv : List ℚ) (svc : EmbedSvc) (index : VectorIndex)
    (hqv : opts.queryVector = some qv) :
    (∀ c ∈ index (jsOrNat opts.limit 10) qv, c.score < jsOrQ opts.minSimilarity (3/5) →
      c ∉ directCandidates index qv (jsOrNat opts.limit 10) (jsOrQ opts.minSimilarity (3/5))) ∧
    (∀ c ∈ index (jsOrNat opts.limit 10) qv, jsOrQ opts.minSimilarity (3/5) ≤ c.score →
      c ∈ directCandidates index qv (jsOrNat opts.limit 10) (jsOrQ opts.minSimilarity (3/5))) ∧
    (directCandidates index qv (jsOrNat opts.limit 10)
      (jsOrQ opts.minSimilarity (3/5))).Pairwise (fun a b => b.score ≤ a.score) ∧
    (directCandidates index qv (jsOrNat opts.limit 10) (jsOrQ opts.minSimilarity (3/5)) = [] →
      semanticSearch st q opts svc index true = { entities := [], relations := [] }) ∧
    (∀ ts, opts.entityTypes = some ts → ts ≠ [] →
      ∀ se ∈ fallbackFiltered st index qv (jsOrNat opts.limit 10)
        (jsOrQ opts.minSimilarity (3/5)) opts, se.row.entityType ∈ ts) ∧
    (∀ se ∈ fallbackFiltered st index qv (jsOrNat opts.limit 10)
      (jsOrQ opts.minSimilarity (3/5)) opts, jsOrQ opts.minSimilarity (3/5) ≤ se.score) := by
  refine ⟨?_, ?_, ?_, ?_, ?_, ?_⟩
  · intro c _ hlt hmem
    unfold directCandidates at hmem
    rw [List.mem_mergeSort] at hmem
    have := (List.mem_filter.mp hmem).2
    rw [decide_eq_true_iff] at this
    exact absurd this (not_le.mpr hlt)
  · intro c hc hle
    unfold directCandidates
    rw [List.mem_mergeSort]
    exact List.mem_filter.mpr ⟨hc, decide_eq_true hle⟩
  · unfold directCandidates
    have hs := @List.sorted_mergeSort Candidate
      (fun a b : Candidate => decide (b.score ≤ a.score))
      (fun a b c hab hbc => by
        rw [decide_eq_true_iff] at hab hbc ⊢
        exact le_trans hbc hab)
      (fun a b => by
        rcases le_total b.score a.score with h | h
        · simp [h]
        · simp [h])
      ((index (jsOrNat opts.limit 10) qv).filter
        (fun c => jsOrQ opts.minSimilarity (3/5) ≤ c.score))
    exact hs.imp (fun h => of_decide_eq_true h)
  · intro hnil
    have hss : semanticSearch st q opts svc index true
        = semanticVectorPath st opts qv index true := by
      unfold semanticSearch
      rw [hqv]
      rfl
    rw [hss]
    unfold semanticVectorPath
    dsimp only
    rw [hnil]
    rfl
  · intro ts hts htsne se hse
    unfold fallbackFiltered at hse
    have hse2 := List.take_subset _ _ hse
    have hpred := (List.mem_filter.mp hse2).2
    rw [hts] at hpred
    dsimp only at hpred
    rw [if_neg (fun h => htsne (List.isEmpty_iff.mp h))] at hpred
    simpa using hpred
  · intro se hse
    unfold fallbackFiltered at hse
    have hse2 := List.take_subset _ _ hse
    have hse3 := (List.mem_filter.mp hse2).1
    have hpred := (List.mem_filter.mp hse3).2
    rwa [decide_eq_true_iff] at hpred

/-- Witness for `semanticSearch_vector_contract`: the 0.9-scored candidate is
retained by the direct lookup with the default 0.6 floor. -/
theorem semanticSearch_vector_contract_witness :
    ({ name := "E", entityType := "B", score := 9/10 } : Candidate) ∈
      directCandidates idxE [1] (jsOrNat optsC7.limit 10) (jsOrQ optsC7.minSimilarity (3/5)) :=
  (semanticSearch_vector_contract stC7 "q" optsC7 [1] none idxE rfl).2.1
    { name := "E", entityType := "B", score := 9/10 } (by simp [idxE])
    (by norm_num [optsC7, jsOrQ])

theorem jsOrNat_floor (x : Option Nat) : jsOrNat (some (jsOrNat x 10)) 10 = jsOrNat x 10 := by
  cases x with
  | none => rfl
  | some v =>
    by_cases hv : v = 0
    · simp [jsOrNat, hv]
    · simp [jsOrNat, hv]

/-- `searchNodes` only reads the (floored) limit and the entity-type filter
from the options. -/
theorem searchNodes_eq_of_fields (st : KGState) (q : String) (o1 o2 : SemOptions)
    (hl : jsOrNat o1.limit 10 = jsOrNat o2.limit 10)
    (ht : o1.entityTypes = o2.entityTypes) :
    searchNodes st q o1 = searchNodes st q o2 := by
  unfold searchNodes typeOk
  simp only [hl, ht]

/-- C1: in a `semanticSearch` call with no caller-supplied query vector and an
embedding service available, even when the embedding succeeds the call runs
the lexical text search: the vector branch belongs to the same if/else-if
chain and is never re-entered, so the freshly generated query vector is
discarded and the native vector index is never consulted (the right-hand side
does not depend on `index` or `directOk`). -/
theorem semanticSearch_embed_then_text (st : KGState) (q : String) (opts : SemOptions)
    (f : String → Except String (List ℚ)) (index : VectorIndex) (directOk : Bool)
    (v : List ℚ) (hqv : opts.queryVector = none) (hok : f q = Except.ok v) :
    semanticSearch st q opts (some f) index directOk = searchNodes st q opts := by
  unfold semanticSearch
  rw [hqv]
  show searchNodes st q
    { opts with limit := some (jsOrNat opts.limit 10), queryVector := none }
      = searchNodes st q opts
  exact searchNodes_eq_of_fields st q _ opts (jsOrNat_floor opts.limit) rfl

/-- Witness for `semanticSearch_embed_then_text` with a succeeding embedding
service. -/
theorem semanticSearch_embed_then_text_witness :
    semanticSearch stA "x" {} (some svcOk) idxEmpty true = searchNodes stA "x" {} :=
  semanticSearch_embed_then_text stA "x" {} svcOk idxEmpty true [1] rfl rfl

/-- C8: with no embedding gateway configured and no explicit query vector,
`semanticSearch` returns exactly the result of the lexical `searchNodes` on
the same query and options. -/
theorem semanticSearch_no_gateway_equiv (st : KGState) (q : String) (opts : SemOptions)
    (index : VectorIndex) (directOk : Bool) (hqv : opts.queryVector = none) :
    semanticSearch st q opts none index directOk = searchNodes st q opts := by
  unfold semanticSearch
  rw [hqv]
  show searchNodes st q
    { opts with limit := some (jsOrNat opts.limit 10), queryVector := none }
      = searchNodes st q opts
  exact searchNodes_eq_of_fields st q _ opts (jsOrNat_floor opts.limit) rfl

/-- Witness for `semanticSearch_no_gateway_equiv`. -/
theorem semanticSearch_no_gateway_equiv_witness :
    semanticSearch stA "x" {} none idxEmpty true = searchNodes stA "x" {} :=
  semanticSearch_no_gateway_equiv stA "x" {} idxEmpty true rfl

theorem sumSq_nil : sumSq ([] : List ℝ) = 0 := by
  simp [sumSq]

theorem sumSq_cons (x : ℝ) (t : List ℝ) : sumSq (x :: t) = x * x + sumSq t := by
  simp [sumSq]

theorem sumSq_nonneg (v : List ℝ) : 0 ≤ sumSq v := by
  induction v with
  | nil => rw [sumSq_nil]
  | cons x t ih =>
    rw [sumSq_cons]
    exact add_nonneg (mul_self_nonneg x) ih

theorem sumSq_eq_zero {v : List ℝ} (h : sumSq v = 0) : ∀ x ∈ v, x = 0 := by
  induction v with
  | nil => intro x hx; cases hx
  | cons x t ih =>
    rw [sumSq_cons] at h
    have h2 := (add_eq_zero_iff_of_nonneg (mul_self_nonneg x) (sumSq_nonneg t)).mp h
    intro y hy
    rcases List.mem_cons.mp hy with rfl | hyt
    · exact mul_self_eq_zero.mp h2.1
    · exact ih h2.2 y hyt

theorem sumSq_of_all_zero {v : List ℝ} (h : ∀ x ∈ v, x = 0) : sumSq v = 0 := by
  induction v with
  | nil => exact sumSq_nil
  | cons x t ih =>
    rw [sumSq_cons, h x (List.mem_cons_self x t),
      ih (fun y hy => h y (List.mem_cons_of_mem x hy))]
    ring

theorem sumSq_map_div (v : List ℝ) (m : ℝ) :
    sumSq (v.map (fun x => x / m)) = (m * m)⁻¹ * sumSq v := by
  unfold sumSq
  rw [List.map_map]
  have hfun : ((fun x => x * x) ∘ fun x : ℝ => x / m) = fun x : ℝ => (m * m)⁻¹ * (x * x) := by
    funext x
    show (x / m) * (x / m) = (m * m)⁻¹ * (x * x)
    rw [div_mul_div_comm, div_eq_inv_mul]
  rw [hfun, List.sum_map_mul_left]

/-- C10: `generateEmbedding` rejects an empty raw vector and otherwise
returns `_normalizeVector` of it, whose L2 norm is exactly 1: a vector of
positive magnitude is divided componentwise by its magnitude, a vector of
magnitude 0 has its first component set to 1, and a zero vector is never
returned. -/
theorem generateEmbedding_unit_norm (raw : List ℝ) (h : raw ≠ []) :
    generateEmbedding raw = Except.ok (normalizeVector raw) ∧
    magnitude (normalizeVector raw) = 1 ∧
    (0 < magnitude raw → normalizeVector raw = raw.map (fun x => x / magnitude raw)) ∧
    (magnitude raw = 0 → normalizeVector raw = 1 :: raw.tail) ∧
    normalizeVector raw ≠ List.replicate (normalizeVector raw).length 0 := by
  have hne : raw.isEmpty = false := by
    cases raw with
    | nil => exact absurd rfl h
    | cons x t => rfl
  have hmag : magnitude (normalizeVector raw) = 1 := by
    by_cases hm : 0 < magnitude raw
    · have hS : 0 < sumSq raw := Real.sqrt_pos.mp hm
      unfold normalizeVector
      dsimp only
      rw [if_pos hm]
      unfold magnitude
      rw [sumSq_map_div]
      have hmm : magnitude raw * magnitude raw = sumSq raw :=
        Real.mul_self_sqrt (le_of_lt hS)
      unfold magnitude at hmm
      rw [hmm, inv_mul_cancel₀ (ne_of_gt hS), Real.sqrt_one]
    · have hm0 : magnitude raw = 0 :=
        le_antisymm (not_lt.mp hm) (Real.sqrt_nonneg _)
      have hS0 : sumSq raw = 0 :=
        le_antisymm (Real.sqrt_eq_zero'.mp hm0) (sumSq_nonneg raw)
      unfold normalizeVector
      dsimp only
      rw [if_neg hm]
      cases raw with
      | nil => exact absurd rfl h
      | cons x t =>
        have hzero : ∀ y ∈ t, y = 0 := fun y hy =>
          sumSq_eq_zero hS0 y (List.mem_cons_of_mem x hy)
        unfold magnitude
        rw [sumSq_cons, sumSq_of_all_zero hzero]
        norm_num
  refine ⟨?_, hmag, ?_, ?_, ?_⟩
  · unfold generateEmbedding
    rw [hne]
    rfl
  · intro hm
    unfold normalizeVector
    dsimp only
    rw [if_pos hm]
  · intro hm0
    have hm : ¬ 0 < magnitude raw := by
      rw [hm0]
      exact lt_irrefl 0
    unfold normalizeVector
    dsimp only
    rw [if_neg hm]
    cases raw with
    | nil => exact absurd rfl h
    | cons x t => rfl
  · intro hrep
    have h1 : magnitude (List.replicate (normalizeVector raw).length (0:ℝ)) = 1 :=
      hrep ▸ hmag
    have h0 : sumSq (List.replicate (normalizeVector raw).length (0:ℝ)) = 0 :=
      sumSq_of_all_zero (fun y hy => List.eq_of_mem_replicate hy)
    unfold magnitude at h1
    rw [h0, Real.sqrt_zero] at h1
    norm_num at h1

/-- Witness for `generateEmbedding_unit_norm` at the raw vector `[3, 4]`. -/
theorem generateEmbedding_unit_norm_witness :
    generateEmbedding [(3:ℝ), 4] = Except.ok (normalizeVector [(3:ℝ), 4]) ∧
    magnitude (normalizeVector [(3:ℝ), 4]) = 1 :=
  ⟨(generateEmbedding_unit_norm [(3:ℝ), 4] (by simp)).1,
   (generateEmbedding_unit_norm [(3:ℝ), 4] (by simp)).2.1⟩
